import Mathlib

/-!
Shallow embedding of the simcard repository (a SimSimi-style chat lookup-and-teach
service) and proofs about its claims.

The persistence layer (src/simsimi-api/database.js) drives an SQLite database; its
SQL statements are embedded at their SQLite meaning: the two tables are lists of
rows, the generated column normalized_question is a derived function of the
question column, and ORDER BY teach_count DESC is read as a stable sort in table
order.  The upsert statement names the generated column in its INSERT column
list, which SQLite rejects at prepare time (cannot INSERT into generated
column), so upsertResponse is modelled as always failing without writing; the
other statements prepare and run normally.  CURRENT_TIMESTAMP and Date.now()
become explicit time parameters, and the Math.random() draw in the ask route
becomes an explicit choice parameter.  Strings are handled at the
character-list level so that every operation computes: JavaScript toLowerCase /
SQL LOWER are ASCII lower-casing, JavaScript trim removes ASCII whitespace,
while SQL TRIM removes only space characters.
-/

set_option linter.unusedVariables false

namespace Simsimi

/-- Whitespace test used by JavaScript trim (restricted to the ASCII whitespace
characters: space, tab, LF, VT, FF, CR). -/
def wsChar (c : Char) : Bool :=
  c.toNat == 32 || c.toNat == 9 || c.toNat == 10 || c.toNat == 13 ||
    c.toNat == 11 || c.toNat == 12

/-- Lower-casing of a character sequence (JavaScript toLowerCase / SQL LOWER on
ASCII letters). -/
def lowerChars (l : List Char) : List Char := l.map Char.toLower

/-- Removal of leading and trailing whitespace (JavaScript String.prototype.trim). -/
def jsTrimChars (l : List Char) : List Char :=
  ((l.dropWhile wsChar).reverse.dropWhile wsChar).reverse

/-- Removal of leading and trailing space characters only (SQLite TRIM with a
single argument removes the space character, not other whitespace). -/
def sqlTrimChars (l : List Char) : List Char :=
  ((l.dropWhile (fun c => c == ' ')).reverse.dropWhile (fun c => c == ' ')).reverse

/-- Key as computed in JavaScript: question.toLowerCase().trim()
(database.js lines 159, 180, 243). -/
def jsNormalize (s : String) : String := ⟨jsTrimChars (lowerChars s.data)⟩

/-- Generated column of the conversations table: LOWER(TRIM(question))
(database.js line 78). -/
def sqlNormalize (s : String) : String := ⟨lowerChars (sqlTrimChars s.data)⟩

/-- Normalization in the order the spec words it: lower-casing applied to the
whitespace-trimmed question. -/
def specNormalize (s : String) : String := ⟨lowerChars (jsTrimChars s.data)⟩

/-- Test that pat is an initial segment of l. -/
def listStartsWith : List Char → List Char → Bool
  | [], _ => true
  | _ :: _, [] => false
  | p :: ps, c :: cs => p == c && listStartsWith ps cs

/-- Test that pat occurs contiguously inside l. -/
def listContainsSub (pat : List Char) : List Char → Bool
  | [] => listStartsWith pat []
  | c :: cs => listStartsWith pat (c :: cs) || listContainsSub pat cs

/-- Case-insensitive LIKE against the pattern %pat%: pat occurs inside s up to
ASCII case (PRAGMA case_sensitive_like = OFF; the percent signs around the bound
term make it a containment test).  The term is taken literally: searches whose
term itself contains the LIKE metacharacters are outside this model. -/
def likeContains (pat s : String) : Bool :=
  listContainsSub (lowerChars pat.data) (lowerChars s.data)

/-- Row of the conversations table (database.js lines 74 to 84).  The column
normalized_question is generated from question and therefore not stored (see
convKey); teach_count defaults to 1 and is_active to true. -/
structure Conversation where
  id : Nat
  question : String
  answer : String
  teach_count : Nat
  is_active : Bool
  created_at : Nat
  updated_at : Nat
deriving Repr, DecidableEq

/-- Generated column normalized_question = LOWER(TRIM(question)) of a row. -/
def convKey (c : Conversation) : String := sqlNormalize c.question

/-- Row of the logs table (database.js lines 94 to 104). -/
structure LogEntry where
  id : Nat
  question : String
  response : Option String
  is_taught : Bool
  response_time_ms : Int
  user_agent : String
  ip_address : String
  timestamp : Nat
deriving Repr, DecidableEq

/-- Database state: the two tables in row order plus their AUTOINCREMENT
counters. -/
structure DBState where
  conversations : List Conversation
  logs : List LogEntry
  nextConvId : Nat
  nextLogId : Nat
deriving Repr, DecidableEq

/-- Fresh database with empty tables (AUTOINCREMENT ids start at 1). -/
def emptyDB : DBState := ⟨[], [], 1, 1⟩

/-- Rows of the conversations table whose normalized_question equals k. -/
def entriesFor (s : DBState) (k : String) : List Conversation :=
  s.conversations.filter (fun c => decide (convKey c = k))

/-- Active rows of the conversations table whose normalized_question equals k. -/
def activeEntriesFor (s : DBState) (k : String) : List Conversation :=
  s.conversations.filter (fun c => decide (convKey c = k) && c.is_active)

/-- findResponse (database.js lines 157 to 176): SELECT * FROM conversations
WHERE normalized_question = ? AND is_active = 1 LIMIT 1, the parameter being
question.toLowerCase().trim(); db.get returns the first row or undefined. -/
def findResponse (s : DBState) (q : String) : Option Conversation :=
  (s.conversations.filter (fun c => decide (convKey c = jsNormalize q) && c.is_active)).head?

/-- upsertResponse (database.js lines 178 to 201) runs the statement INSERT INTO
conversations (question, answer, normalized_question) VALUES (?, ?, ?)
ON CONFLICT(normalized_question) DO UPDATE SET answer = excluded.answer,
teach_count = teach_count + 1, updated_at = CURRENT_TIMESTAMP RETURNING *.
Its column list names normalized_question, which the schema (database.js line
78) declares GENERATED ALWAYS AS (LOWER(TRIM(question))) VIRTUAL, and SQLite
rejects any INSERT that names a generated column at prepare time with the error
cannot INSERT into generated column.  Every call therefore rejects its promise
with that error, returns no row, and writes nothing: none models the rejection
and the store is unchanged. -/
def upsertResponse (s : DBState) (q a : String) (now : Nat) :
    Option (Conversation × DBState) :=
  none

/-- logInteraction (database.js lines 203 to 218): INSERT INTO logs of one row,
resolving with this.lastID. -/
def logInteraction (s : DBState) (q : String) (resp : Option String) (taught : Bool)
    (ua ip : String) (rt : Int) (now : Nat) : Nat × DBState :=
  (s.nextLogId,
   { s with logs := s.logs ++ [⟨s.nextLogId, q, resp, taught, rt, ua, ip, now⟩],
            nextLogId := s.nextLogId + 1 })

/-- SQL MAX aggregate over a scanned INTEGER column: NULL on the empty set. -/
def sqlMaxNat : List Nat → Option Nat
  | [] => none
  | t :: ts => some (ts.foldl Nat.max t)

/-- SQL AVG aggregate over scanned INTEGER values: NULL on the empty set,
otherwise the exact mean of the running sum and count. -/
def sqlAvgInt (l : List Int) : Option ℚ :=
  let p := l.foldl (fun (acc : ℚ × Nat) (v : Int) => (acc.1 + (v : ℚ), acc.2 + 1)) (0, 0)
  if p.2 = 0 then none else some (p.1 / (p.2 : ℚ))

/-- Aggregate row returned by getStats (database.js lines 220 to 239). -/
structure StatsRow where
  total_responses : Nat
  total_interactions : Nat
  taught_responses : Nat
  last_taught : Option Nat
  avg_response_time : Option ℚ
deriving DecidableEq

/-- getStats (database.js lines 220 to 239): the five scalar subqueries, in
particular MAX(created_at) over conversations and AVG(response_time_ms) over
logs WHERE response_time_ms > 0. -/
def getStats (s : DBState) : StatsRow :=
  ⟨s.conversations.length,
   s.logs.length,
   (s.logs.filter (fun e => e.is_taught)).length,
   sqlMaxNat (s.conversations.map (fun c => c.created_at)),
   sqlAvgInt ((s.logs.map (fun e => e.response_time_ms)).filter (fun v => decide (0 < v)))⟩

/-- Stable insertion of a row into a list already sorted by teach_count
descending: the incoming row goes before the first row with a count less than
or equal to its own, so existing ties keep their order. -/
def insertDescTC (c : Conversation) : List Conversation → List Conversation
  | [] => [c]
  | d :: ds => if d.teach_count ≤ c.teach_count then c :: d :: ds else d :: insertDescTC c ds

/-- ORDER BY teach_count DESC read as a stable sort in table order. -/
def sortDescTC : List Conversation → List Conversation
  | [] => []
  | c :: cs => insertDescTC c (sortDescTC cs)

/-- searchResponses (database.js lines 241 to 262).  The WHERE clause
normalized_question LIKE ? OR answer LIKE ? AND is_active = 1 parses, by SQL
operator precedence, with the AND bound to the second LIKE only; the bound
pattern is %searchTerm.toLowerCase().trim()%; then ORDER BY teach_count DESC
with LIMIT lim OFFSET off. -/
def searchResponses (s : DBState) (term : String) (lim off : Nat) : List Conversation :=
  let pat := jsNormalize term
  let rows := s.conversations.filter
    (fun c => likeContains pat (convKey c) || (likeContains pat c.answer && c.is_active))
  ((sortDescTC rows).drop off).take lim

/-- Fallback messages offered by GET /ask when nothing matches
(simsimi.js lines 141 to 147). -/
def defaultResponses : List String :=
  ["I don't know how to respond to that yet. Can you teach me?",
   "Hmm, I'm not sure about that one. Want to teach me the answer?",
   "That's a new one for me! What should I say to that?",
   "I'm still learning! Could you teach me how to respond to that?",
   "I don't have an answer for that. Would you like to teach me?"]

/-- Outcome of GET /ask as seen by the client. -/
inductive AskResult where
  | badRequest
  | answered (response : String) (teach_count : Nat)
  | fallback (response : String)
deriving Repr, DecidableEq

/-- GET /ask (simsimi.js lines 103 to 169): rejects a missing or blank q without
logging; otherwise looks the question up, logs one interaction whose response is
the found answer or null and whose is_taught is the double-negated lookup
result, then answers with the taught response or with a pseudo-randomly chosen
fallback message.  choice stands for the Math.random() draw and rt for the
measured response time. -/
def ask (s : DBState) (q : String) (choice : Nat) (ua ip : String) (rt : Int) (now : Nat) :
    AskResult × DBState :=
  if jsTrimChars q.data = [] then (.badRequest, s)
  else
    let r := findResponse s q
    let s1 := (logInteraction s q (r.map (fun c => c.answer)) r.isSome ua ip rt now).2
    match r with
    | some c => (.answered c.answer c.teach_count, s1)
    | none => (.fallback (defaultResponses.getD (choice % defaultResponses.length) ""), s1)

/-- Outcome of POST /teach as seen by the client: the 400 validation rejection,
the 500 answer of the catch block, or 201 with the upserted row. -/
inductive TeachResult where
  | validationError
  | storageError
  | ok (entry : Conversation)
deriving Repr, DecidableEq

/-- POST /teach (simsimi.js lines 172 to 227): rejects with 400 when question or
answer is falsy (for strings: empty) or when question.length > 500 or
answer.length > 1000; otherwise awaits db.upsertResponse and, were it to
succeed, would log the teaching and answer 201.  Since the upsert statement
always errors (see upsertResponse), the await throws, control reaches the catch
block, and the route answers 500 with no store mutation and no log row; the
success branch is kept to mirror the route but is unreachable. -/
def teach (s : DBState) (q a : String) (ua ip : String) (rt : Int) (now : Nat) :
    TeachResult × DBState :=
  if q = "" ∨ a = "" then (.validationError, s)
  else if 500 < q.length ∨ 1000 < a.length then (.validationError, s)
  else
    match upsertResponse s q a now with
    | some r => (.ok r.1, (logInteraction r.2 q (some a) true ua ip rt now).2)
    | none => (.storageError, s)

/-- Requests-per-window threshold RATE_LIMIT (simsimi.js line 11). -/
def rlMax : Nat := 100

/-- Window length RATE_LIMIT_WINDOW in milliseconds (simsimi.js line 12). -/
def rlWindow : Int := 60000

/-- The in-memory requestCounts map, one timestamp list per client address; a
missing key stands for the empty list. -/
abbrev RLMap := String → List Int

/-- The rateLimit middleware (simsimi.js lines 15 to 46) on one request: prune
the address's timestamps to those strictly after now - 60000, reject with 429
when 100 or more remain, otherwise record now and accept; the pruned list is
stored back into the map in both cases. -/
def rlStep (m : RLMap) (ip : String) (now : Int) : Bool × RLMap :=
  let pruned := (m ip).filter (fun t => decide (now - rlWindow < t))
  if rlMax ≤ pruned.length then
    (false, fun j => if j = ip then pruned else m j)
  else
    (true, fun j => if j = ip then pruned ++ [now] else m j)

/-- Processing of a whole request trace by the rate limiter, returning the final
map and the sublist of accepted requests. -/
def rlRun : RLMap → List (String × Int) → RLMap × List (String × Int)
  | m, [] => (m, [])
  | m, (ip, t) :: rest =>
    let st := rlStep m ip t
    let r := rlRun st.2 rest
    (r.1, if st.1 then (ip, t) :: r.2 else r.2)

/-- Number of recorded requests of address ip whose time lies in the sliding
window (now - 60000, now]. -/
def windowCount (acc : List (String × Int)) (ip : String) (now : Int) : Nat :=
  (acc.filter (fun r =>
    decide (r.1 = ip) && (decide (now - rlWindow < r.2) && decide (r.2 ≤ now)))).length

/-- Recorded times of the requests of address ip, in arrival order. -/
def timesOf (acc : List (String × Int)) (ip : String) : List Int :=
  (acc.filter (fun r => decide (r.1 = ip))).map (fun r => r.2)

/-- Rate-limiter state invariant: each address's stored list is exactly its
accepted request times above some cutoff no later than b - 60000, where b
bounds every time processed so far. -/
def RLInv (m : RLMap) (acc : List (String × Int)) (b : Int) : Prop :=
  ∀ ip, ∃ c : Int, c ≤ b - rlWindow ∧
    m ip = (timesOf acc ip).filter (fun t => decide (c < t))

/-- The database operations in scope for the uniqueness invariant. -/
inductive DBOp where
  | findOp (q : String)
  | upsertOp (q a : String) (now : Nat)
  | searchOp (term : String) (lim off : Nat)
  | statsOp
  | recordOp (q : String) (resp : Option String) (taught : Bool) (ua ip : String)
      (rt : Int) (now : Nat)

/-- State of the store after one upsert call: the updated state on success, the
unchanged state when the statement errors (as it always does). -/
def applyUpsert (s : DBState) (p : String × String × Nat) : DBState :=
  match upsertResponse s p.1 p.2.1 p.2.2 with
  | some r => r.2
  | none => s

/-- Effect of one in-scope operation on the database state; reads leave it
unchanged, and the upsert leaves it unchanged when its statement errors. -/
def applyOp (s : DBState) : DBOp → DBState
  | .findOp _ => s
  | .upsertOp q a now => applyUpsert s (q, a, now)
  | .searchOp _ _ _ => s
  | .statsOp => s
  | .recordOp q resp taught ua ip rt now => (logInteraction s q resp taught ua ip rt now).2

/-- The UNIQUE(normalized_question) schema constraint: pairwise distinct keys
over the conversations table. -/
def KeyUniq (s : DBState) : Prop :=
  List.Pairwise (fun a b => a ≠ b) (s.conversations.map convKey)

/-- Modelled from the spec: lastTaughtAt is the maximum createdAt over all
conversation entries (none when there are no entries). -/
def specLastTaught (s : DBState) : Option Nat :=
  (s.conversations.map (fun c => c.created_at)).max?

/-- Modelled from the spec: avgResponseTimeMs is the arithmetic mean of the
recorded response times over exactly the log entries whose recorded response
time is strictly positive (none when there are no such entries). -/
def specAvgResponse (s : DBState) : Option ℚ :=
  let pos := s.logs.filter (fun e => decide (0 < e.response_time_ms))
  if pos = [] then none
  else some ((pos.map (fun e => (e.response_time_ms : ℚ))).sum / (pos.length : ℚ))

/-- Store holding one inactive row whose normalized question contains "hello". -/
def cexSearch : DBState := ⟨[⟨1, "hello", "world", 1, false, 0, 0⟩], [], 2, 1⟩

/-- A store holding one taught entry (what the seed data intends), used to
instantiate the universal C4/C10 theorems, which quantify over every store. -/
def oneTaught : DBState := ⟨[⟨1, "hello", "Hi there!", 1, true, 3, 3⟩], [], 2, 1⟩

theorem toNat_toLower_of_upper (c : Char) (h : 65 ≤ c.toNat ∧ c.toNat ≤ 90) :
    (Char.toLower c).toNat = c.toNat + 32 := by
  have hv : (c.toNat + 32).isValidChar := by left; omega
  show (let n := c.toNat; if n ≥ 65 ∧ n ≤ 90 then Char.ofNat (n + 32) else c).toNat
      = c.toNat + 32
  simp only [if_pos h]
  simp only [Char.ofNat, hv, dif_pos]
  simp only [Char.ofNatAux, Char.toNat]
  rfl

theorem toLower_of_not_upper (c : Char) (h : ¬(65 ≤ c.toNat ∧ c.toNat ≤ 90)) :
    Char.toLower c = c := by
  show (let n := c.toNat; if n ≥ 65 ∧ n ≤ 90 then Char.ofNat (n + 32) else c) = c
  simp only [if_neg h]

theorem wsChar_toLower (c : Char) : wsChar (Char.toLower c) = wsChar c := by
  by_cases h : 65 ≤ c.toNat ∧ c.toNat ≤ 90
  · have h2 := toNat_toLower_of_upper c h
    simp only [wsChar, h2]
    have key : ∀ m : Nat, 65 ≤ m → m ≤ 90 →
        ((m + 32 == 32 || m + 32 == 9 || m + 32 == 10 || m + 32 == 13 ||
            m + 32 == 11 || m + 32 == 12) = false)
        ∧ ((m == 32 || m == 9 || m == 10 || m == 13 || m == 11 || m == 12) = false) := by
      intro m h1 h2
      constructor <;> (simp only [Bool.or_eq_false_iff, beq_eq_false_iff_ne, ne_eq]; omega)
    rw [(key c.toNat h.1 h.2).1, (key c.toNat h.1 h.2).2]
  · rw [toLower_of_not_upper c h]

theorem jsTrim_lower_comm (l : List Char) :
    jsTrimChars (lowerChars l) = lowerChars (jsTrimChars l) := by
  have hws : wsChar ∘ Char.toLower = wsChar := funext wsChar_toLower
  unfold jsTrimChars lowerChars
  rw [List.dropWhile_map, hws, ← List.map_reverse, List.dropWhile_map, hws,
    ← List.map_reverse]

theorem specNormalize_eq_jsNormalize (s : String) : specNormalize s = jsNormalize s := by
  unfold specNormalize jsNormalize
  rw [jsTrim_lower_comm]

/-- Claim C4: for question strings that agree after lower-casing and trimming
of leading/trailing whitespace, findResponse returns the same result (the same
entry, or none for both): the lookup depends on the question only through its
normalized form. -/
theorem C4_find_normalized (s : DBState) (q1 q2 : String)
    (h : specNormalize q1 = specNormalize q2) :
    findResponse s q1 = findResponse s q2 := by
  have hj : jsNormalize q1 = jsNormalize q2 := by
    rw [← specNormalize_eq_jsNormalize, ← specNormalize_eq_jsNormalize, h]
  unfold findResponse
  rw [hj]

/-- Witness for C4 at a concrete store and a concrete case/whitespace variant
of a taught question. -/
theorem C4_witness :
    findResponse oneTaught "  HELLO " = findResponse oneTaught "hello" :=
  C4_find_normalized oneTaught "  HELLO " "hello" (by decide)

/-- Claim C10: searchResponses normalizes its term by lower-casing and
trimming, so terms agreeing after normalization give identical result
sequences for every store, limit and offset. -/
theorem C10_search_normalized (s : DBState) (t1 t2 : String) (lim off : Nat)
    (h : specNormalize t1 = specNormalize t2) :
    searchResponses s t1 lim off = searchResponses s t2 lim off := by
  have hj : jsNormalize t1 = jsNormalize t2 := by
    rw [← specNormalize_eq_jsNormalize, ← specNormalize_eq_jsNormalize, h]
  unfold searchResponses
  rw [hj]

/-- Witness for C10 at a concrete store and a case/whitespace variant of the
search term. -/
theorem C10_witness :
    searchResponses oneTaught " HeLLo  " 10 0 = searchResponses oneTaught "hello" 10 0 :=
  C10_search_normalized oneTaught " HeLLo  " "hello" 10 0 (by decide)

/-- Claim C1 fails on the code: the upsert's INSERT names the generated column
normalized_question, which SQLite rejects at prepare time (cannot INSERT into
generated column), so every upsert call errors without writing.  Two upserts of
"hello" on the empty store — which has no active entry for the key — leave no
entry at all for the normalized question, instead of one entry with answer a2
and teachCount 2; the first call creates nothing, so teachCount never reaches
1, let alone 2. -/
theorem C1_upsert_errors :
    upsertResponse emptyDB "hello" "a1" 1 = none ∧
      entriesFor (applyUpsert (applyUpsert emptyDB ("hello", "a1", 1)) ("hello", "a2", 2))
        (sqlNormalize "hello") = [] :=
  ⟨rfl, rfl⟩

theorem filter_key_len_le_one (l : List Conversation)
    (hl : List.Pairwise (fun a b => a ≠ b) (l.map convKey))
    (p : Conversation → Bool) (k : String) (hp : ∀ c, p c = true → convKey c = k) :
    (l.filter p).length ≤ 1 := by
  induction l with
  | nil => simp
  | cons c cs ih =>
    rw [List.map_cons, List.pairwise_cons] at hl
    by_cases hc : p c = true
    · rw [List.filter_cons_of_pos hc]
      have hnil : cs.filter p = [] := by
        rw [List.filter_eq_nil_iff]
        intro d hd hpd
        exact hl.1 (convKey d) (List.mem_map_of_mem convKey hd)
          ((hp c hc).trans (hp d hpd).symm)
      rw [hnil]
      exact Nat.le_refl 1
    · rw [List.filter_cons_of_neg (by simpa using hc)]
      exact ih hl.2

theorem applyOp_conversations (s : DBState) (op : DBOp) :
    (applyOp s op).conversations = s.conversations := by
  cases op <;> rfl

theorem foldl_applyOp_conversations (ops : List DBOp) (s0 : DBState) :
    (ops.foldl applyOp s0).conversations = s0.conversations := by
  induction ops generalizing s0 with
  | nil => rfl
  | cons op rest ih =>
    rw [List.foldl_cons, ih, applyOp_conversations]

/-- Claim C2: after any sequence of the in-scope operations on a store
satisfying the schema's UNIQUE(normalized_question) constraint, at most one
active conversation entry exists per normalized question; in particular upsert
never creates a second entry (active or not) for a normalized question that
already has one — indeed no in-scope operation writes the conversations table
at all: find, search and stats are reads, the log insert touches only the logs
table, and the upsert statement always errors. -/
theorem C2_active_unique (ops : List DBOp) (s0 : DBState) (h : KeyUniq s0) (k : String) :
    (activeEntriesFor (ops.foldl applyOp s0) k).length ≤ 1 := by
  unfold activeEntriesFor
  rw [foldl_applyOp_conversations]
  exact filter_key_len_le_one _ h _ k
    (fun c hc => of_decide_eq_true ((Bool.and_eq_true _ _).mp hc).1)

/-- Witness for C2: two teaches of case variants of one question starting from
the empty store leave at most one active entry for the key. -/
theorem C2_witness :
    (activeEntriesFor
      ([DBOp.upsertOp "hello" "a" 0, DBOp.upsertOp "HELLO" "b" 1].foldl applyOp emptyDB)
      (sqlNormalize "hello")).length ≤ 1 :=
  C2_active_unique [DBOp.upsertOp "hello" "a" 0, DBOp.upsertOp "HELLO" "b" 1] emptyDB
    (by simp [KeyUniq, emptyDB]) (sqlNormalize "hello")

/-- Claim C8 fails on the code for the same reason as C1: each of the N upsert
statements is rejected by SQLite (the INSERT names the generated column
normalized_question), so N upserts of questions sharing one normalized form
leave the conversations table exactly as it was — zero entries for the key on
an initially empty store — rather than one entry with teachCount N. -/
theorem C8_upserts_error :
    upsertResponse emptyDB "hello" "a" 0 = none ∧
      (∀ (teaches : List (String × String × Nat)) (s : DBState),
        (teaches.foldl applyUpsert s).conversations = s.conversations) ∧
      entriesFor ([("hello", "a", 0), ("HELLO", "b", 1)].foldl applyUpsert emptyDB)
        (sqlNormalize "hello") = [] := by
  refine ⟨rfl, ?_, rfl⟩
  intro teaches
  induction teaches with
  | nil => intro s; rfl
  | cons p ps ih => intro s; exact ih (applyUpsert s p)

/-- Counterexample to claim C5 as stated: a whitespace-only (blank but
non-empty) question passes the teach validation, because JavaScript falsiness
rejects only the empty string and the route has no blank check; the call is
therefore not rejected with a ValidationError — it proceeds to the upsert,
whose statement errors, and the route reports a storage failure (500)
instead. -/
theorem C5_counterexample :
    (teach emptyDB "   " "hi" "ua" "ip" 0 0).1 = TeachResult.storageError ∧
      (teach emptyDB "   " "hi" "ua" "ip" 0 0).1 ≠ TeachResult.validationError := by
  decide

/-- Claim C5, amended: teach rejects with ValidationError exactly when the
question or the answer is the empty string, the question exceeds 500
characters, or the answer exceeds 1000 characters; a whitespace-only non-empty
question or answer passes validation and instead ends in a storage failure
(the upsert statement itself always errors).  The store is never mutated — in
particular not by a rejected call — and teaching with an empty question or an
empty answer is rejected with the store unchanged. -/
theorem C5_validation (s : DBState) (q a ua ip : String) (rt : Int) (now : Nat) :
    ((teach s q a ua ip rt now).1 = TeachResult.validationError ↔
        (q = "" ∨ a = "" ∨ 500 < q.length ∨ 1000 < a.length)) ∧
      (teach s q a ua ip rt now).2 = s ∧
      teach s "" a ua ip rt now = (TeachResult.validationError, s) ∧
      teach s q "" ua ip rt now = (TeachResult.validationError, s) := by
  refine ⟨?_, ?_, ?_, ?_⟩
  · unfold teach
    by_cases h1 : q = "" ∨ a = ""
    · rw [if_pos h1]
      constructor
      · intro _
        rcases h1 with h | h
        · exact Or.inl h
        · exact Or.inr (Or.inl h)
      · intro _
        rfl
    · rw [if_neg h1]
      by_cases h2 : 500 < q.length ∨ 1000 < a.length
      · rw [if_pos h2]
        constructor
        · intro _
          rcases h2 with h | h
          · exact Or.inr (Or.inr (Or.inl h))
          · exact Or.inr (Or.inr (Or.inr h))
        · intro _
          rfl
      · rw [if_neg h2]
        constructor
        · intro hbad
          exact TeachResult.noConfusion hbad
        · intro hor
          rcases hor with h | h | h | h
          · exact absurd (Or.inl h) h1
          · exact absurd (Or.inr h) h1
          · exact absurd (Or.inl h) h2
          · exact absurd (Or.inr h) h2
  · unfold teach
    by_cases h1 : q = "" ∨ a = ""
    · rw [if_pos h1]
    · rw [if_neg h1]
      by_cases h2 : 500 < q.length ∨ 1000 < a.length
      · rw [if_pos h2]
      · rw [if_neg h2]
        rfl
  · unfold teach
    rw [if_pos (Or.inl rfl)]
  · unfold teach
    rw [if_pos (Or.inr rfl)]

/-- Witness for the amended C5: the two specific rejected calls of the claim,
on the empty store. -/
theorem C5_witness :
    teach emptyDB "" "hi" "ua" "ip" 0 0 = (TeachResult.validationError, emptyDB) ∧
      teach emptyDB "hi" "" "ua" "ip" 0 0 = (TeachResult.validationError, emptyDB) :=
  ⟨(C5_validation emptyDB "hi" "hi" "ua" "ip" 0 0).2.2.1,
   (C5_validation emptyDB "hi" "hi" "ua" "ip" 0 0).2.2.2⟩

/-- Claim C6: asking a valid (non-blank) question with no matching active
entry answers with one of the five fixed fallback messages, appends exactly
one log entry with response null and is_taught false, and leaves the
conversations table unchanged. -/
theorem C6_ask_not_found (s : DBState) (q : String) (choice : Nat) (ua ip : String)
    (rt : Int) (now : Nat) (hq : ¬(jsTrimChars q.data = []))
    (hf : findResponse s q = none) :
    (ask s q choice ua ip rt now).1 ∈ defaultResponses.map AskResult.fallback ∧
      (ask s q choice ua ip rt now).2.conversations = s.conversations ∧
      (ask s q choice ua ip rt now).2.logs =
        s.logs ++ [⟨s.nextLogId, q, none, false, rt, ua, ip, now⟩] := by
  have hlt : choice % defaultResponses.length < defaultResponses.length :=
    Nat.mod_lt choice (by decide)
  have hmem : defaultResponses.getD (choice % defaultResponses.length) "" ∈ defaultResponses := by
    rw [List.getD_eq_getElem defaultResponses "" hlt]
    exact List.getElem_mem hlt
  refine ⟨?_, ?_, ?_⟩
  · simp only [ask, if_neg hq, hf, Option.map_none', Option.isSome_none, logInteraction]
    exact List.mem_map_of_mem AskResult.fallback hmem
  · simp [ask, if_neg hq, hf, logInteraction]
  · simp [ask, if_neg hq, hf, logInteraction]

/-- Witness for C6 on the empty store with an unknown question. -/
theorem C6_witness :
    (ask emptyDB "unknown-xyz" 0 "ua" "ip" 3 7).1 ∈ defaultResponses.map AskResult.fallback :=
  (C6_ask_not_found emptyDB "unknown-xyz" 0 "ua" "ip" 3 7 (by decide) rfl).1

/-- Claim C3 fails on the code: by SQL operator precedence the WHERE clause of
searchResponses reads normalized_question LIKE p OR (answer LIKE p AND
is_active = 1), so the is_active restriction does not apply to matches on the
normalized question.  On a store whose single row is inactive with question
"hello", search("hello", 10, 0) returns that inactive row. -/
theorem C3_search_returns_inactive :
    searchResponses cexSearch "hello" 10 0 = [⟨1, "hello", "world", 1, false, 0, 0⟩] ∧
      (⟨1, "hello", "world", 1, false, 0, 0⟩ : Conversation).is_active = false :=
  ⟨rfl, rfl⟩

theorem sqlMaxNat_eq_max (l : List Nat) : sqlMaxNat l = l.max? := by
  cases l with
  | nil => rfl
  | cons a as => rfl

theorem sqlAvg_foldl (l : List Int) (a : ℚ) (n : Nat) :
    l.foldl (fun (acc : ℚ × Nat) (v : Int) => (acc.1 + (v : ℚ), acc.2 + 1)) (a, n) =
      (a + (l.map (fun v : Int => (v : ℚ))).sum, n + l.length) := by
  induction l generalizing a n with
  | nil => simp
  | cons v vs ih =>
    rw [List.foldl_cons, ih, List.map_cons, List.sum_cons, List.length_cons]
    refine Prod.ext ?_ ?_
    · show a + (v : ℚ) + (vs.map (fun v : Int => (v : ℚ))).sum
        = a + ((v : ℚ) + (vs.map (fun v : Int => (v : ℚ))).sum)
      ring
    · show n + 1 + vs.length = n + (vs.length + 1)
      omega

theorem logPos_comm (logs : List LogEntry) :
    (logs.map (fun e => e.response_time_ms)).filter (fun v => decide (0 < v)) =
      (logs.filter (fun e => decide (0 < e.response_time_ms))).map
        (fun e => e.response_time_ms) := by
  induction logs with
  | nil => rfl
  | cons e es ih =>
    by_cases h : (0 : Int) < e.response_time_ms
    · have hd : decide (0 < e.response_time_ms) = true := decide_eq_true h
      simp [List.filter_cons, List.map_cons, hd, ih]
    · have hd : decide (0 < e.response_time_ms) = false := decide_eq_false h
      simp [List.filter_cons, List.map_cons, hd, ih]

/-- Claim C7: getStats computes last_taught as the maximum created_at over all
conversation entries (creation, not update, time), and avg_response_time as
the mean over exactly the log entries with strictly positive recorded response
time. -/
theorem C7_stats (s : DBState) :
    (getStats s).last_taught = specLastTaught s ∧
      (getStats s).avg_response_time = specAvgResponse s := by
  constructor
  · simp only [getStats, specLastTaught]
    exact sqlMaxNat_eq_max _
  · simp only [getStats, specAvgResponse, sqlAvgInt]
    rw [logPos_comm s.logs, sqlAvg_foldl]
    simp only [zero_add, List.length_map, List.map_map, Function.comp_def]
    by_cases h : s.logs.filter (fun e => decide (0 < e.response_time_ms)) = []
    · rw [h]
      simp
    · rw [if_neg (by simpa [List.length_eq_zero] using h), if_neg h]

theorem length_filter_mono {α : Type} (p q : α → Bool) (l : List α)
    (h : ∀ x ∈ l, p x = true → q x = true) :
    (l.filter p).length ≤ (l.filter q).length := by
  induction l with
  | nil => simp
  | cons x xs ih =>
    have ih2 := ih (fun y hy => h y (List.mem_cons_of_mem x hy))
    by_cases hp : p x = true
    · rw [List.filter_cons_of_pos hp,
        List.filter_cons_of_pos (h x (List.mem_cons_self x xs) hp)]
      simpa using ih2
    · rw [List.filter_cons_of_neg (by simpa using hp)]
      by_cases hq : q x = true
      · rw [List.filter_cons_of_pos hq]
        exact Nat.le_succ_of_le ih2
      · rw [List.filter_cons_of_neg (by simpa using hq)]
        exact ih2

theorem filter_map_filter {α β : Type} (l : List α) (p : α → Bool) (f : α → β)
    (q : β → Bool) :
    ((l.filter p).map f).filter q = (l.filter (fun a => p a && q (f a))).map f := by
  induction l with
  | nil => rfl
  | cons x xs ih =>
    cases hp : p x
    · simp [List.filter_cons, hp, ih]
    · cases hq : q (f x)
      · simp [List.filter_cons, hp, hq, ih]
      · simp [List.filter_cons, hp, hq, ih]

theorem windowCount_eq_times (acc : List (String × Int)) (ip : String) (now : Int) :
    windowCount acc ip now =
      ((timesOf acc ip).filter
        (fun t => decide (now - rlWindow < t) && decide (t ≤ now))).length := by
  unfold windowCount timesOf
  rw [filter_map_filter, List.length_map]

theorem timesOf_append (acc1 acc2 : List (String × Int)) (ip : String) :
    timesOf (acc1 ++ acc2) ip = timesOf acc1 ip ++ timesOf acc2 ip := by
  unfold timesOf
  rw [List.filter_append, List.map_append]

theorem windowCount_append (acc1 acc2 : List (String × Int)) (ip : String) (now : Int) :
    windowCount (acc1 ++ acc2) ip now = windowCount acc1 ip now + windowCount acc2 ip now := by
  unfold windowCount
  rw [List.filter_append, List.length_append]

theorem pruned_eq (mip times : List Int) (c t : Int) (hct : c ≤ t - rlWindow)
    (hm : mip = times.filter (fun x => decide (c < x))) :
    mip.filter (fun x => decide (t - rlWindow < x)) =
      times.filter (fun x => decide (t - rlWindow < x)) := by
  rw [hm, List.filter_filter]
  apply List.filter_congr
  intro x hx
  by_cases h2 : t - rlWindow < x
  · have h3 : c < x := by omega
    simp [h2, h3]
  · simp [h2]

theorem rlRun_invariant (reqs : List (String × Int)) :
    ∀ (m : RLMap) (acc : List (String × Int)) (b : Int),
      List.Chain (fun x y => x ≤ y) b (reqs.map (fun r => r.2)) →
      RLInv m acc b →
      (∀ r ∈ acc, r.2 ≤ b) →
      (∀ ip now, windowCount acc ip now ≤ rlMax) →
      (∀ ip now, windowCount (acc ++ (rlRun m reqs).2) ip now ≤ rlMax) ∧
        RLInv (rlRun m reqs).1 (acc ++ (rlRun m reqs).2)
          ((reqs.map (fun r => r.2)).getLastD b) ∧
        (∀ r ∈ acc ++ (rlRun m reqs).2, r.2 ≤ (reqs.map (fun r => r.2)).getLastD b) := by
  induction reqs with
  | nil =>
    intro m acc b hchain hinv hbound hwok
    refine ⟨?_, ?_, ?_⟩
    · intro ip now
      simpa [rlRun] using hwok ip now
    · simpa [rlRun] using hinv
    · simpa [rlRun] using hbound
  | cons req rest ih =>
    obtain ⟨ip, t⟩ := req
    intro m acc b hchain hinv hbound hwok
    rw [List.map_cons, List.chain_cons] at hchain
    obtain ⟨hbt, hchain2⟩ := hchain
    obtain ⟨c, hc, hmip⟩ := hinv ip
    have hpruned : (m ip).filter (fun x => decide (t - rlWindow < x)) =
        (timesOf acc ip).filter (fun x => decide (t - rlWindow < x)) :=
      pruned_eq (m ip) (timesOf acc ip) c t (by omega) hmip
    by_cases hrej : rlMax ≤ ((m ip).filter (fun x => decide (t - rlWindow < x))).length
    · have hstep1 : (rlStep m ip t).1 = false := by
        simp [rlStep, hrej]
      have hstep2 : (rlStep m ip t).2 =
          fun j => if j = ip then (m ip).filter (fun x => decide (t - rlWindow < x))
            else m j := by
        simp [rlStep, hrej]
      have hrun1 : (rlRun m ((ip, t) :: rest)).1 = (rlRun (rlStep m ip t).2 rest).1 := by
        simp [rlRun, hstep1]
      have hrun2 : (rlRun m ((ip, t) :: rest)).2 = (rlRun (rlStep m ip t).2 rest).2 := by
        simp [rlRun, hstep1]
      have hinv2 : RLInv (rlStep m ip t).2 acc t := by
        intro ip2
        by_cases hip2 : ip2 = ip
        · subst hip2
          refine ⟨t - rlWindow, le_refl _, ?_⟩
          rw [hstep2]
          simpa using hpruned
        · obtain ⟨c2, hc2, hm2⟩ := hinv ip2
          refine ⟨c2, by omega, ?_⟩
          rw [hstep2]
          simpa [hip2] using hm2
      have hbound2 : ∀ r ∈ acc, r.2 ≤ t := fun r hr => le_trans (hbound r hr) hbt
      obtain ⟨g1, g2, g3⟩ := ih (rlStep m ip t).2 acc t hchain2 hinv2 hbound2 hwok
      rw [List.map_cons, List.getLastD_cons, hrun1, hrun2]
      exact ⟨g1, g2, g3⟩
    · have hlen : ((m ip).filter (fun x => decide (t - rlWindow < x))).length < rlMax :=
        Nat.lt_of_not_le hrej
      have hstep1 : (rlStep m ip t).1 = true := by
        simp [rlStep, hrej]
      have hstep2 : (rlStep m ip t).2 =
          fun j => if j = ip
            then (m ip).filter (fun x => decide (t - rlWindow < x)) ++ [t] else m j := by
        simp [rlStep, hrej]
      have hrun1 : (rlRun m ((ip, t) :: rest)).1 = (rlRun (rlStep m ip t).2 rest).1 := by
        simp [rlRun, hstep1]
      have hrun2 : (rlRun m ((ip, t) :: rest)).2 =
          (ip, t) :: (rlRun (rlStep m ip t).2 rest).2 := by
        simp [rlRun, hstep1]
      have hWt : t - rlWindow < t := by
        unfold rlWindow
        omega
      have htimes_self : timesOf (acc ++ [(ip, t)]) ip = timesOf acc ip ++ [t] := by
        rw [timesOf_append]
        simp [timesOf]
      have htimes_other : ∀ ip2, ip2 ≠ ip → timesOf (acc ++ [(ip, t)]) ip2 = timesOf acc ip2 := by
        intro ip2 hne
        have hne2 : ¬(ip = ip2) := fun hh => hne hh.symm
        rw [timesOf_append]
        simp [timesOf, hne2]
      have hinv2 : RLInv (rlStep m ip t).2 (acc ++ [(ip, t)]) t := by
        intro ip2
        by_cases hip2 : ip2 = ip
        · subst hip2
          refine ⟨t - rlWindow, le_refl _, ?_⟩
          rw [hstep2]
          simp only [if_pos rfl]
          rw [htimes_self, List.filter_append, hpruned]
          simp [hWt]
        · obtain ⟨c2, hc2, hm2⟩ := hinv ip2
          refine ⟨c2, by omega, ?_⟩
          rw [hstep2]
          rw [htimes_other ip2 hip2]
          simpa [hip2] using hm2
      have hbound2 : ∀ r ∈ acc ++ [(ip, t)], r.2 ≤ t := by
        intro r hr
        rcases List.mem_append.mp hr with h | h
        · exact le_trans (hbound r h) hbt
        · rw [List.mem_singleton] at h
          subst h
          exact le_refl t
      have hwok2 : ∀ ip2 now, windowCount (acc ++ [(ip, t)]) ip2 now ≤ rlMax := by
        intro ip2 now
        rw [windowCount_append]
        cases hb : (decide ((ip, t).1 = ip2) &&
            (decide (now - rlWindow < (ip, t).2) && decide ((ip, t).2 ≤ now))) with
        | false =>
          have hzero : windowCount [(ip, t)] ip2 now = 0 := by
            simp [windowCount, List.filter_cons, hb]
          rw [hzero]
          simpa using hwok ip2 now
        | true =>
          have hdec : ip = ip2 ∧ now - rlWindow < t ∧ t ≤ now := by
            simpa using hb
          obtain ⟨he1, he2, he3⟩ := hdec
          subst he1
          have hone : windowCount [(ip, t)] ip now = 1 := by
            simp [windowCount, List.filter_cons, he2, he3]
          have hwle : windowCount acc ip now ≤
              ((timesOf acc ip).filter (fun x => decide (t - rlWindow < x))).length := by
            rw [windowCount_eq_times]
            apply length_filter_mono
            intro x hx hpx
            have h1 : now - rlWindow < x ∧ x ≤ now := by simpa using hpx
            exact decide_eq_true (by omega)
          have hcount : windowCount acc ip now < rlMax := by
            have := hpruned ▸ hlen
            omega
          rw [hone]
          omega
      obtain ⟨g1, g2, g3⟩ := ih (rlStep m ip t).2 (acc ++ [(ip, t)]) t hchain2 hinv2 hbound2 hwok2
      rw [List.map_cons, List.getLastD_cons, hrun1, hrun2,
        List.append_cons acc (ip, t) (rlRun (rlStep m ip t).2 rest).2]
      exact ⟨g1, g2, g3⟩

/-- Claim C9: for every request trace with nondecreasing times, every client
address and every instant, at most 100 accepted (counted) requests of that
address lie in the sliding window of the preceding 60 seconds; and a request
arriving when 100 or more counted requests of the same address lie within the
preceding 60 seconds is rejected by the middleware (so it never reaches the
store).  Only accepted requests are recorded by the middleware, so the window
counts accepted requests. -/
theorem C9_rate_limit (reqs : List (String × Int)) (b : Int)
    (hchain : List.Chain (fun x y => x ≤ y) b (reqs.map (fun r => r.2))) :
    (∀ ip now, windowCount (rlRun (fun j => []) reqs).2 ip now ≤ rlMax) ∧
      (∀ ip now, (reqs.map (fun r => r.2)).getLastD b ≤ now →
        rlMax ≤ windowCount (rlRun (fun j => []) reqs).2 ip now →
        (rlStep (rlRun (fun j => []) reqs).1 ip now).1 = false) := by
  obtain ⟨g1, g2, g3⟩ := rlRun_invariant reqs (fun j => []) [] b hchain
    (fun ip => ⟨b - rlWindow, le_refl _, by simp [timesOf]⟩)
    (by intro r hr; exact absurd hr (List.not_mem_nil r))
    (by intro ip now; simp [windowCount])
  rw [List.nil_append] at g1 g2 g3
  refine ⟨g1, ?_⟩
  intro ip now hlast hge
  obtain ⟨c, hc, hmf⟩ := g2 ip
  have hpr : ((rlRun (fun j => []) reqs).1 ip).filter (fun x => decide (now - rlWindow < x)) =
      (timesOf (rlRun (fun j => []) reqs).2 ip).filter (fun x => decide (now - rlWindow < x)) :=
    pruned_eq _ _ c now (by omega) hmf
  have hwle : windowCount (rlRun (fun j => []) reqs).2 ip now ≤
      ((timesOf (rlRun (fun j => []) reqs).2 ip).filter
        (fun x => decide (now - rlWindow < x))).length := by
    rw [windowCount_eq_times]
    apply length_filter_mono
    intro x hx hpx
    have h1 : now - rlWindow < x ∧ x ≤ now := by simpa using hpx
    exact decide_eq_true h1.1
  have hfinal : rlMax ≤
      (((rlRun (fun j => []) reqs).1 ip).filter (fun x => decide (now - rlWindow < x))).length := by
    rw [hpr]
    omega
  simp [rlStep, hfinal]

/-- Witness for C9 at a two-request trace of one address. -/
theorem C9_witness :
    windowCount (rlRun (fun j => []) [("a", 0), ("a", 5)]).2 "a" 5 ≤ rlMax :=
  (C9_rate_limit [("a", 0), ("a", 5)] 0
    (List.Chain.cons (by norm_num) (List.Chain.cons (by norm_num) List.Chain.nil))).1 "a" 5

end Simsimi
